import Mathlib

/-!
Verification of the grounding-grid calculation engine (NBR 15751 substation
grounding tool). Each TypeScript function of the numeric core is embedded as
a Lean definition over `ℝ` (JavaScript numbers are modelled as real numbers;
every guard and branch of the source is reproduced), and the spec's claims
are settled as theorems about these definitions.
-/

noncomputable section

open Real

/-- Body-weight selector of the source (`'50' | '70'`). -/
inductive BodyWeight where
  | w50 : BodyWeight
  | w70 : BodyWeight
deriving DecidableEq

/-- Duration class of the source (`'curta' | 'longa'`). -/
inductive VoltageDuration where
  | curta : VoltageDuration
  | longa : VoltageDuration
deriving DecidableEq

/-- `k = 0.116` for 50 kg, `0.157` for 70 kg (inlined in the source). -/
def bodyK (w : BodyWeight) : ℝ :=
  match w with
  | .w50 => 0.116
  | .w70 => 0.157

/-- Embedding of `calculateMaxTouchVoltage` (src/unnamed/part_001:276). -/
def calculateMaxTouchVoltage (t cs rho_s : ℝ) (w : BodyWeight) : ℝ :=
  if t ≤ 0 then 0
  else (1000 + 1.5 * cs * rho_s) * (bodyK w / Real.sqrt t)

/-- Embedding of `calculateMaxStepVoltage` (src/unnamed/part_001:291). -/
def calculateMaxStepVoltage (t cs rho_s : ℝ) (w : BodyWeight) : ℝ :=
  if t ≤ 0 then 0
  else (1000 + 6 * cs * rho_s) * (bodyK w / Real.sqrt t)

/-- `LONG_DURATION_THRESHOLD` of the source. -/
def LONG_DURATION_THRESHOLD : ℝ := 3

/-- `LONG_DURATION_BODY_CURRENT` of the source. -/
def LONG_DURATION_BODY_CURRENT : ℝ := 0.006

/-- Result record of `calculatePermissibleVoltages`. -/
structure PermissibleVoltagesResult where
  vPasso : ℝ
  vToque : ℝ
  duration : VoltageDuration
deriving DecidableEq

/-- Embedding of `calculatePermissibleVoltages` (src/unnamed/part_001:329). -/
def calculatePermissibleVoltages (t cs rho_s : ℝ) (w : BodyWeight) :
    PermissibleVoltagesResult :=
  if t ≤ 0 then
    { vPasso := 0, vToque := 0, duration := .curta }
  else if t ≤ LONG_DURATION_THRESHOLD then
    { vPasso := calculateMaxStepVoltage t cs rho_s w
      vToque := calculateMaxTouchVoltage t cs rho_s w
      duration := .curta }
  else
    { vPasso := LONG_DURATION_BODY_CURRENT * (1000 + 6 * cs * rho_s)
      vToque := LONG_DURATION_BODY_CURRENT * (1000 + 1.5 * cs * rho_s)
      duration := .longa }

/-- Embedding of `calculateConductorSection` (src/unnamed/part_001:168),
Onderdonk-type minimum conductor section. -/
def calculateConductorSection (If t alpha20 rho20 tcap tm ta : ℝ) : ℝ :=
  if If ≤ 0 ∨ t ≤ 0 ∨ alpha20 ≤ 0 ∨ rho20 ≤ 0 ∨ tcap ≤ 0 ∨ tm ≤ ta then 0
  else
    let Ko := 1 / alpha20 - 20
    let numer := t * alpha20 * rho20 * 10000
    let denom := tcap * Real.log ((Ko + tm) / (Ko + ta))
    if denom ≤ 0 then 0
    else If * Real.sqrt (numer / denom)

/-- Embedding of `calculateKf` (src/unnamed/part_001:221). -/
def calculateKf (alpha20 rho20 tcap tm ta : ℝ) : ℝ :=
  if alpha20 ≤ 0 ∨ rho20 ≤ 0 ∨ tcap ≤ 0 ∨ tm ≤ ta then 0
  else
    let Ko := 1 / alpha20 - 20
    let numer := alpha20 * rho20 * 10000
    let denom := tcap * Real.log ((Ko + tm) / (Ko + ta))
    if denom ≤ 0 then 0
    else Real.sqrt (numer / denom)

/-- Embedding of `calculateKi` (src/unnamed/part_001:357): no input guard. -/
def calculateKi (n : ℝ) : ℝ :=
  0.656 + 0.172 * n

/-- Embedding of `calculateKm` (src/unnamed/part_001:370), with its
neutral-zero guard on non-positive inputs. -/
def calculateKm (D h d n : ℝ) (hasRods : Bool) : ℝ :=
  if D ≤ 0 ∨ h ≤ 0 ∨ d ≤ 0 ∨ n ≤ 0 then 0
  else
    let Kii := if hasRods then 1 else 1 / (2 * n) ^ (2 / n : ℝ)
    let Kh := Real.sqrt (1 + h)
    let term1 := D * D / (16 * h * d)
    let term2 := (D + 2 * h) ^ 2 / (8 * D * d)
    let term3 := h / (4 * d)
    let ln1 := Real.log (term1 + term2 - term3)
    let ln2 := Real.log (8 / (Real.pi * (2 * n - 1)))
    1 / (2 * Real.pi) * (ln1 + Kii / Kh * ln2)

/-- Optional rod set argument of `calculateSchwarzResistance`
(`{count, length, diameter_mm}`). -/
structure RodSpec where
  count : ℝ
  length : ℝ
  diameter_mm : ℝ

/-- Result record of `calculateSchwarzResistance`
(`{resistance, k1, k2, r1?, r2?, r12?}`; the optional fields are absent on
the invalid-input early return). -/
structure SchwarzResult where
  resistance : ℝ
  k1 : ℝ
  k2 : ℝ
  r1 : Option ℝ
  r2 : Option ℝ
  r12 : Option ℝ

/-- The `(k1, k2)` pair of `calculateSchwarzResistance`
(src/unnamed/part_001:58-102): IEEE-80 Fig-25 curve coefficients interpolated
on the relative depth `h/√A`, applied to the length/width ratio. -/
def schwarzK1K2 (A Lx Ly h : ℝ) : ℝ × ℝ :=
  let L := max Lx Ly
  let W := min Lx Ly
  let lwRatio := if 0 < W then L / W else 1
  let hSqrtA := h / Real.sqrt A
  let cf :=
    if hSqrtA ≤ 0 then (((-0.04 : ℝ), (1.41 : ℝ)), ((0.15 : ℝ), (5.50 : ℝ)))
    else if 1 / 6 ≤ hSqrtA then (((-0.05 : ℝ), (1.13 : ℝ)), ((-0.05 : ℝ), (4.40 : ℝ)))
    else if hSqrtA ≤ 0.1 then
      let factor := (hSqrtA - 0) / (0.1 - 0)
      ((-0.04 + (-0.05 - -0.04) * factor, 1.41 + (1.20 - 1.41) * factor),
       (0.15 + (0.10 - 0.15) * factor, 5.50 + (4.68 - 5.50) * factor))
    else
      let factor := (hSqrtA - 0.1) / (1 / 6 - 0.1)
      ((-0.05 + (-0.05 - -0.05) * factor, 1.20 + (1.13 - 1.20) * factor),
       (0.10 + (-0.05 - 0.10) * factor, 4.68 + (4.40 - 4.68) * factor))
  (cf.1.1 * lwRatio + cf.1.2, cf.2.1 * lwRatio + cf.2.2)

/-- `R1`, the grid-only Schwarz resistance (src/unnamed/part_001:104-110). -/
def schwarzR1 (rho A Lx Ly Lc h d_mm : ℝ) : ℝ :=
  let rM := d_mm / 1000 / 2
  let aP := Real.sqrt (rM * 2 * h)
  let k := schwarzK1K2 A Lx Ly h
  rho / (Real.pi * Lc) * (Real.log (2 * Lc / aP) + k.1 * Lc / Real.sqrt A - k.2)

/-- `R2`, the rods-only Schwarz resistance (src/unnamed/part_001:117-132). -/
def schwarzR2 (rho A Lx Ly h nr Lr dr : ℝ) : ℝ :=
  let b := dr / 1000 / 2
  let k := schwarzK1K2 A Lx Ly h
  rho / (2 * Real.pi * nr * Lr) *
    (Real.log (4 * Lr / b) - 1 +
      2 * k.1 * Lr / Real.sqrt A * (Real.sqrt nr - 1) ^ 2)

/-- `R12`, the mutual Schwarz resistance (src/unnamed/part_001:134-141). -/
def schwarzR12 (rho A Lx Ly Lc h Lr : ℝ) : ℝ :=
  let k := schwarzK1K2 A Lx Ly h
  rho / (Real.pi * Lc) * (Real.log (2 * Lc / Lr) + k.1 * Lc / Real.sqrt A - k.2 + 1)

/-- Embedding of `calculateSchwarzResistance` (src/unnamed/part_001:40-154),
with both rod-validity guards and the zero-denominator fallback of the
combination formula reproduced from the source. -/
def calculateSchwarzResistance (rho A Lx Ly Lc h d_mm : ℝ)
    (rods : Option RodSpec) : SchwarzResult :=
  if rho ≤ 0 ∨ A ≤ 0 ∨ Lc ≤ 0 ∨ h ≤ 0 ∨ d_mm ≤ 0 then
    { resistance := 0, k1 := 0, k2 := 0, r1 := none, r2 := none, r12 := none }
  else
    let k := schwarzK1K2 A Lx Ly h
    let r1 := schwarzR1 rho A Lx Ly Lc h d_mm
    match rods with
    | none =>
        { resistance := r1, k1 := k.1, k2 := k.2
          r1 := some r1, r2 := some 0, r12 := some 0 }
    | some rd =>
        if rd.count ≤ 0 ∨ rd.length ≤ 0 then
          { resistance := r1, k1 := k.1, k2 := k.2
            r1 := some r1, r2 := some 0, r12 := some 0 }
        else if rd.count = 0 ∨ rd.length = 0 ∨ rd.diameter_mm / 1000 / 2 = 0 then
          { resistance := r1, k1 := k.1, k2 := k.2
            r1 := some r1, r2 := some 0, r12 := some 0 }
        else
          let r2 := schwarzR2 rho A Lx Ly h rd.count rd.length rd.diameter_mm
          let r12 := schwarzR12 rho A Lx Ly Lc h rd.length
          let numer := r1 * r2 - r12 * r12
          let denom := r1 + r2 - 2 * r12
          let rg := if denom ≠ 0 then numer / denom else r1
          { resistance := rg, k1 := k.1, k2 := k.2
            r1 := some r1, r2 := some r2, r12 := some r12 }

/-- C3: with valid base inputs but no valid rods (argument absent, or
`count ≤ 0`, or `length ≤ 0`), `calculateSchwarzResistance` returns exactly
the grid-only `R1` as the resistance and reports `r2 = 0` and `r12 = 0`. -/
theorem schwarz_no_rods_returns_r1 (rho A Lx Ly Lc h d_mm : ℝ)
    (rods : Option RodSpec)
    (hrho : 0 < rho) (hA : 0 < A) (hLc : 0 < Lc) (hh : 0 < h) (hd : 0 < d_mm)
    (hrods : rods = none ∨ ∃ rd, rods = some rd ∧ (rd.count ≤ 0 ∨ rd.length ≤ 0)) :
    (calculateSchwarzResistance rho A Lx Ly Lc h d_mm rods).resistance =
      schwarzR1 rho A Lx Ly Lc h d_mm ∧
    (calculateSchwarzResistance rho A Lx Ly Lc h d_mm rods).r1 =
      some (schwarzR1 rho A Lx Ly Lc h d_mm) ∧
    (calculateSchwarzResistance rho A Lx Ly Lc h d_mm rods).r2 = some 0 ∧
    (calculateSchwarzResistance rho A Lx Ly Lc h d_mm rods).r12 = some 0 := by
  have hguard : ¬(rho ≤ 0 ∨ A ≤ 0 ∨ Lc ≤ 0 ∨ h ≤ 0 ∨ d_mm ≤ 0) := by
    push_neg
    exact ⟨hrho, hA, hLc, hh, hd⟩
  rcases hrods with h | ⟨rd, hrd, hbad⟩
  · subst h
    unfold calculateSchwarzResistance
    rw [if_neg hguard]
    exact ⟨rfl, rfl, rfl, rfl⟩
  · subst hrd
    unfold calculateSchwarzResistance
    rw [if_neg hguard]
    simp [if_pos hbad]

/-- Witness for C3: base inputs `ρ = 100, A = 2000, Lx = 50, Ly = 40,
Lc = 890, h = 0.5, d = 7.98`, rods absent. -/
theorem schwarz_no_rods_returns_r1_witness :
    (0:ℝ) < 100 ∧ (0:ℝ) < 2000 ∧ (0:ℝ) < 890 ∧ (0:ℝ) < 0.5 ∧ (0:ℝ) < 7.98 ∧
    (calculateSchwarzResistance 100 2000 50 40 890 0.5 7.98 none).resistance =
      schwarzR1 100 2000 50 40 890 0.5 7.98 ∧
    (calculateSchwarzResistance 100 2000 50 40 890 0.5 7.98 none).r2 = some 0 ∧
    (calculateSchwarzResistance 100 2000 50 40 890 0.5 7.98 none).r12 = some 0 := by
  have h := schwarz_no_rods_returns_r1 100 2000 50 40 890 0.5 7.98 none
    (by norm_num) (by norm_num) (by norm_num) (by norm_num) (by norm_num)
    (Or.inl rfl)
  exact ⟨by norm_num, by norm_num, by norm_num, by norm_num, by norm_num,
    h.1, h.2.2.1, h.2.2.2⟩

/-- C4: with valid base inputs and valid rods (present, `count > 0`,
`length > 0`, positive diameter), the combined resistance is
`(R1·R2 − R12²)/(R1 + R2 − 2·R12)` unless that denominator is exactly `0`,
in which case `R1` is returned instead. -/
theorem schwarz_combined_resistance (rho A Lx Ly Lc h d_mm : ℝ) (rd : RodSpec)
    (hrho : 0 < rho) (hA : 0 < A) (hLc : 0 < Lc) (hh : 0 < h) (hd : 0 < d_mm)
    (hcount : 0 < rd.count) (hlen : 0 < rd.length) (hdr : 0 < rd.diameter_mm) :
    (calculateSchwarzResistance rho A Lx Ly Lc h d_mm (some rd)).resistance =
      (let r1 := schwarzR1 rho A Lx Ly Lc h d_mm
       let r2 := schwarzR2 rho A Lx Ly h rd.count rd.length rd.diameter_mm
       let r12 := schwarzR12 rho A Lx Ly Lc h rd.length
       if r1 + r2 - 2 * r12 = 0 then r1 else (r1 * r2 - r12 * r12) / (r1 + r2 - 2 * r12)) := by
  have hguard : ¬(rho ≤ 0 ∨ A ≤ 0 ∨ Lc ≤ 0 ∨ h ≤ 0 ∨ d_mm ≤ 0) := by
    push_neg
    exact ⟨hrho, hA, hLc, hh, hd⟩
  have hvalid : ¬(rd.count ≤ 0 ∨ rd.length ≤ 0) := by
    push_neg
    exact ⟨hcount, hlen⟩
  have hb : ¬(rd.count = 0 ∨ rd.length = 0 ∨ rd.diameter_mm / 1000 / 2 = 0) := by
    push_neg
    refine ⟨ne_of_gt hcount, ne_of_gt hlen, ?_⟩
    positivity
  unfold calculateSchwarzResistance
  rw [if_neg hguard]
  simp only [if_neg hvalid, if_neg hb]
  by_cases hden : schwarzR1 rho A Lx Ly Lc h d_mm +
      schwarzR2 rho A Lx Ly h rd.count rd.length rd.diameter_mm -
      2 * schwarzR12 rho A Lx Ly Lc h rd.length = 0
  · simp [hden]
  · simp [hden]

/-- Witness for C4: base inputs `ρ = 100, A = 2000, Lx = 50, Ly = 40,
Lc = 890, h = 0.5, d = 7.98` with 4 rods of length 3 m and diameter 16 mm. -/
theorem schwarz_combined_resistance_witness :
    (0:ℝ) < 100 ∧ (0:ℝ) < (RodSpec.mk 4 3 16).count ∧
    (0:ℝ) < (RodSpec.mk 4 3 16).length ∧ (0:ℝ) < (RodSpec.mk 4 3 16).diameter_mm ∧
    (calculateSchwarzResistance 100 2000 50 40 890 0.5 7.98
        (some (RodSpec.mk 4 3 16))).resistance =
      (let r1 := schwarzR1 100 2000 50 40 890 0.5 7.98
       let r2 := schwarzR2 100 2000 50 40 0.5 4 3 16
       let r12 := schwarzR12 100 2000 50 40 890 0.5 3
       if r1 + r2 - 2 * r12 = 0 then r1
       else (r1 * r2 - r12 * r12) / (r1 + r2 - 2 * r12)) :=
  ⟨by norm_num, by norm_num, by norm_num, by norm_num,
   schwarz_combined_resistance 100 2000 50 40 890 0.5 7.98 (RodSpec.mk 4 3 16)
     (by norm_num) (by norm_num) (by norm_num) (by norm_num) (by norm_num)
     (by norm_num) (by norm_num) (by norm_num)⟩

/-- Embedding of `calculateReflectionK` (src/unnamed/part_002:13). -/
def calculateReflectionK (rho1 rho2 : ℝ) : ℝ :=
  if rho1 + rho2 = 0 then 0 else (rho2 - rho1) / (rho2 + rho1)

/-- The accumulation loop of `calculateN` (src/unnamed/part_002:34-40):
state is `(sum, n, term)`; one iteration computes
`term' = k^n / √(1 + (2n/α)²)`, adds it to the sum and increments `n`; the
loop runs while `|term| > 1e-6` and `n < 10000`. Returns the final state. -/
def calcNLoop (k alpha : ℝ) (n : ℕ) (sum term : ℝ) : ℝ × ℕ × ℝ :=
  if h : 1e-6 < |term| ∧ n < 10000 then
    let term2 := k ^ n / Real.sqrt (1 + (2 * (n : ℝ) / alpha) ^ 2)
    calcNLoop k alpha (n + 1) (sum + term2) term2
  else (sum, n, term)
termination_by 10000 - n
decreasing_by
  have _h2 := h.2
  omega

/-- Embedding of `calculateN` (src/unnamed/part_002:23-43), the
Burgsdorf–Yakobs image-series factor `N = 1 + 2·Σ kⁿ/√(1+(2n/α)²)` with
tolerance `1e-6` and iteration cap `10000`. -/
def calculateN (k alpha : ℝ) : ℝ :=
  if alpha = 0 then 1
  else 1 + 2 * (calcNLoop k alpha 1 0 1).1

/-- Embedding of `calculateApparentResistivity` (src/unnamed/part_002:48-64);
the optional `rho2` is an `Option` and the source's falsy tests `!rho2`,
`!h1` become `= 0` tests on the payload. -/
def calculateApparentResistivity (rho1 : ℝ) (rho2 : Option ℝ) (h1 r : ℝ) : ℝ :=
  match rho2 with
  | none => rho1
  | some v =>
    if v = 0 ∨ v = rho1 ∨ h1 = 0 ∨ h1 ≤ 0 then rho1
    else calculateN (calculateReflectionK rho1 v) (r / h1) * rho1

/-- The loop state always satisfies, on exit: counter bounded by the cap, and
the stop condition (`|term| ≤ 1e-6` or counter at the cap). -/
theorem calcNLoop_bound (k alpha : ℝ) :
    ∀ m n sum term, n ≤ 10000 → 10000 - n ≤ m →
      (calcNLoop k alpha n sum term).2.1 ≤ 10000 ∧
      (|(calcNLoop k alpha n sum term).2.2| ≤ 1e-6 ∨
        10000 ≤ (calcNLoop k alpha n sum term).2.1) := by
  intro m
  induction m with
  | zero =>
    intro n sum term hn hm
    have hn' : n = 10000 := by omega
    subst hn'
    rw [calcNLoop.eq_def, dif_neg (by simp : ¬((1e-6 : ℝ) < |term| ∧ 10000 < 10000))]
    exact ⟨le_refl _, Or.inr (le_refl _)⟩
  | succ m ih =>
    intro n sum term hn hm
    rw [calcNLoop.eq_def]
    split
    case isTrue h =>
      have hlt := h.2
      exact ih (n + 1) _ _ (by omega) (by omega)
    case isFalse h =>
      refine ⟨hn, ?_⟩
      rcases not_and_or.mp h with h1 | h2
      · exact Or.inl (not_lt.mp h1)
      · exact Or.inr (not_lt.mp h2)

/-- With `k = 0` the loop computes a zero first term and stops at `n = 2`. -/
theorem calcNLoop_zero_k (alpha : ℝ) : calcNLoop 0 alpha 1 0 1 = (0, 2, 0) := by
  have h1 : calcNLoop 0 alpha 2 0 0 = (0, 2, 0) := by
    rw [calcNLoop.eq_def, dif_neg]
    rintro ⟨habs, -⟩
    simp at habs
    norm_num at habs
  rw [calcNLoop.eq_def, dif_pos (by norm_num : (1e-6 : ℝ) < |(1 : ℝ)| ∧ 1 < 10000)]
  simpa using h1

/-- C6: `calculateN` terminates for every real `k, α`: it returns `1` when
`α = 0`; otherwise the loop's final counter never exceeds the cap `10000` and
the loop stopped because `|term| ≤ 1e-6` or the counter reached `10000`;
moreover `calculateN 0 α = 1` for `α > 0`. -/
theorem calculateN_terminates (k alpha : ℝ) :
    (alpha = 0 → calculateN k alpha = 1) ∧
    (calcNLoop k alpha 1 0 1).2.1 ≤ 10000 ∧
    (|(calcNLoop k alpha 1 0 1).2.2| ≤ 1e-6 ∨ (calcNLoop k alpha 1 0 1).2.1 = 10000) ∧
    (k = 0 → 0 < alpha → calculateN k alpha = 1) := by
  have hb := calcNLoop_bound k alpha 9999 1 0 1 (by norm_num) (by norm_num)
  refine ⟨fun h0 => ?_, hb.1, ?_, fun hk ha => ?_⟩
  · unfold calculateN
    rw [if_pos h0]
  · rcases hb.2 with h | h
    · exact Or.inl h
    · exact Or.inr (le_antisymm hb.1 h)
  · subst hk
    unfold calculateN
    rw [if_neg ha.ne', calcNLoop_zero_k]
    norm_num

/-- Witness for C6 at `k = 5, α = 0` and `k = 0, α = 1`. -/
theorem calculateN_terminates_witness :
    calculateN 5 0 = 1 ∧ (0 : ℝ) < 1 ∧ calculateN 0 1 = 1 ∧
    (calcNLoop 0 1 1 0 1).2.1 ≤ 10000 :=
  ⟨(calculateN_terminates 5 0).1 rfl, by norm_num,
   (calculateN_terminates 0 1).2.2.2 rfl (by norm_num),
   (calculateN_terminates 0 1).2.1⟩

/-- C5: `calculateApparentResistivity` returns `rho1` exactly whenever the
soil is homogeneous (`rho2` absent, `rho2 = rho1`, or `h1 ≤ 0`), in
particular at `ρ1 = ρ2 = 100, h1 = 2, r = 5`; otherwise (a present, positive
`rho2 ≠ rho1` and `h1 > 0`) it returns
`calculateN (calculateReflectionK rho1 rho2) (r/h1) · rho1`. -/
theorem apparentResistivity_homogeneous (rho1 : ℝ) (rho2 : Option ℝ) (h1 r : ℝ) :
    (rho2 = none ∨ rho2 = some rho1 ∨ h1 ≤ 0 →
      calculateApparentResistivity rho1 rho2 h1 r = rho1) ∧
    calculateApparentResistivity 100 (some 100) 2 5 = 100 ∧
    (∀ v, rho2 = some v → 0 < v → v ≠ rho1 → 0 < h1 →
      calculateApparentResistivity rho1 rho2 h1 r =
        calculateN (calculateReflectionK rho1 v) (r / h1) * rho1) := by
  refine ⟨fun hcase => ?_, ?_, fun v hv hvpos hvne hh1 => ?_⟩
  · rcases hcase with h | h | h
    · subst h; rfl
    · subst h
      simp [calculateApparentResistivity]
    · cases rho2 with
      | none => rfl
      | some v =>
        simp [calculateApparentResistivity, h]
  · simp [calculateApparentResistivity]
  · subst hv
    simp [calculateApparentResistivity, hvpos.ne', hvne, hh1.ne', not_le.mpr hh1]

/-- Witness for C5: homogeneous at `(100, some 100, 2, 5)` and layered at
`(100, some 300, 2, 5)`. -/
theorem apparentResistivity_homogeneous_witness :
    calculateApparentResistivity 100 (some 100) 2 5 = 100 ∧
    ((0:ℝ) < 300 ∧ (300:ℝ) ≠ 100 ∧ (0:ℝ) < 2 ∧
      calculateApparentResistivity 100 (some 300) 2 5 =
        calculateN (calculateReflectionK 100 300) (5 / 2) * 100) :=
  ⟨(apparentResistivity_homogeneous 100 (some 100) 2 5).2.1,
   by norm_num, by norm_num, by norm_num,
   (apparentResistivity_homogeneous 100 (some 300) 2 5).2.2 300 rfl
     (by norm_num) (by norm_num) (by norm_num)⟩

/-- Area selector of the source (`'interna' | 'externa'`). -/
inductive NBR14039Area where
  | interna : NBR14039Area
  | externa : NBR14039Area
deriving DecidableEq

/-- `nbr14039InternalCurve` (src/unnamed/part_001:456). -/
def nbr14039InternalCurve : List (ℝ × ℝ) :=
  [(0.01, 1000), (0.03, 700), (0.1, 480), (0.3, 330), (1, 230), (3, 170), (10, 120)]

/-- `nbr14039ExternalCurve` (src/unnamed/part_001:466). -/
def nbr14039ExternalCurve : List (ℝ × ℝ) :=
  [(0.01, 800), (0.03, 550), (0.1, 380), (0.3, 260), (1, 180), (3, 130), (10, 90)]

/-- The bracket-scan loop of `interpolateLogLog`
(src/unnamed/part_001:480-493): walk consecutive point pairs; inside a
bracket, interpolate linearly in `log10(t)`–`log10(v)` space; fall through
to `0`. -/
def interpScan : List (ℝ × ℝ) → ℝ → ℝ
  | p1 :: p2 :: rest, t =>
    if p1.1 ≤ t ∧ t ≤ p2.1 then
      let ratio := (Real.logb 10 t - Real.logb 10 p1.1) /
        (Real.logb 10 p2.1 - Real.logb 10 p1.1)
      (10 : ℝ) ^ (Real.logb 10 p1.2 + (Real.logb 10 p2.2 - Real.logb 10 p1.2) * ratio)
    else interpScan (p2 :: rest) t
  | _, _ => 0

/-- Embedding of `interpolateLogLog` (src/unnamed/part_001:476-495): empty
list yields `0`; at or before the first point return its value; at or after
the last point return its value; otherwise scan brackets. -/
def interpolateLogLog (points : List (ℝ × ℝ)) (t : ℝ) : ℝ :=
  match points with
  | [] => 0
  | p :: rest =>
    if t ≤ p.1 then p.2
    else if ((p :: rest).getLastD (0, 0)).1 ≤ t then ((p :: rest).getLastD (0, 0)).2
    else interpScan (p :: rest) t

/-- Embedding of `calculateNBR14039TouchVoltage` (src/unnamed/part_001:497):
`null` for `t ≤ 0` (the source also rejects non-finite `t`, which has no
counterpart in `ℝ`), otherwise clamp `t` to `[0.01, 10]` and interpolate on
the selected curve. -/
def calculateNBR14039TouchVoltage (t : ℝ) (area : NBR14039Area) : Option ℝ :=
  if t ≤ 0 then none
  else
    let clampedT := min (max t 0.01) 10
    let curve := match area with
      | .interna => nbr14039InternalCurve
      | .externa => nbr14039ExternalCurve
    some (interpolateLogLog curve clampedT)

/-- C7: `calculateNBR14039TouchVoltage` returns `none` for `t ≤ 0`; for
`t > 0` it is the log–log interpolation of the clamped time; and at or
outside the curve boundaries it returns the exact tabulated endpoint:
`1000` for the internal curve at `t ≤ 0.01` and `120` at `t ≥ 10`. -/
theorem nbr14039_endpoints (t : ℝ) :
    (t ≤ 0 → calculateNBR14039TouchVoltage t .interna = none ∧
      calculateNBR14039TouchVoltage t .externa = none) ∧
    (0 < t → calculateNBR14039TouchVoltage t .interna =
      some (interpolateLogLog nbr14039InternalCurve (min (max t 0.01) 10))) ∧
    calculateNBR14039TouchVoltage 0.01 .interna = some 1000 ∧
    calculateNBR14039TouchVoltage 10 .interna = some 120 ∧
    (0 < t → t ≤ 0.01 → calculateNBR14039TouchVoltage t .interna = some 1000) ∧
    (10 ≤ t → calculateNBR14039TouchVoltage t .interna = some 120) := by
  have hlow : ∀ s : ℝ, 0 < s → s ≤ 0.01 →
      calculateNBR14039TouchVoltage s .interna = some 1000 := by
    intro s hs hs01
    have hclamp : min (max s 0.01) 10 = 0.01 := by
      rw [max_eq_right hs01]
      norm_num
    simp only [calculateNBR14039TouchVoltage, if_neg (not_le.mpr hs), hclamp]
    simp [interpolateLogLog, nbr14039InternalCurve]
  have hhigh : ∀ s : ℝ, 10 ≤ s →
      calculateNBR14039TouchVoltage s .interna = some 120 := by
    intro s hs
    have hs0 : (0:ℝ) < s := by linarith
    have hclamp : min (max s 0.01) 10 = 10 := by
      rw [max_eq_left (by linarith)]
      exact min_eq_right hs
    simp only [calculateNBR14039TouchVoltage, if_neg (not_le.mpr hs0), hclamp]
    rw [show interpolateLogLog nbr14039InternalCurve 10 = 120 by
      norm_num [interpolateLogLog, nbr14039InternalCurve, List.getLastD]]
  refine ⟨fun h0 => ?_, fun h0 => ?_, ?_, ?_, fun h0 h01 => hlow t h0 h01,
    fun h10 => hhigh t h10⟩
  · constructor <;> simp [calculateNBR14039TouchVoltage, h0]
  · simp [calculateNBR14039TouchVoltage, not_le.mpr h0]
  · exact hlow 0.01 (by norm_num) le_rfl
  · exact hhigh 10 le_rfl

/-- Witness for C7 at `t = -1` (null), `t = 0.5` (interpolation path) and the
two boundary times. -/
theorem nbr14039_endpoints_witness :
    calculateNBR14039TouchVoltage (-1) .interna = none ∧
    calculateNBR14039TouchVoltage 0.5 .interna =
      some (interpolateLogLog nbr14039InternalCurve (min (max 0.5 0.01) 10)) ∧
    calculateNBR14039TouchVoltage 0.01 .interna = some 1000 ∧
    calculateNBR14039TouchVoltage 10 .interna = some 120 :=
  ⟨((nbr14039_endpoints (-1)).1 (by norm_num)).1,
   (nbr14039_endpoints 0.5).2.1 (by norm_num),
   (nbr14039_endpoints 0).2.2.1,
   (nbr14039_endpoints 0).2.2.2.1⟩

/-- Indexing `matrix[r][c]` with JavaScript-style out-of-range defaulting. -/
def getCell (m : List (List ℝ)) (r c : ℕ) : ℝ :=
  (m.getD r []).getD c 0

/-- The per-cell forward-difference gradient magnitude of
`calculateStepMatrix` (src/unnamed/part_002:212-220): differences to the
right and below neighbours, clamped to the cell itself at the edges. -/
def gradCell (m : List (List ℝ)) (rows cols r c : ℕ) : ℝ :=
  let v := getCell m r c
  let vRight := if c < cols - 1 then getCell m r (c + 1) else v
  let vDown := if r < rows - 1 then getCell m (r + 1) c else v
  let dx := |v - vRight|
  let dy := |v - vDown|
  Real.sqrt (dx * dx + dy * dy)

/-- The matrix-wide maximum gradient of `calculateStepMatrix`
(src/unnamed/part_002:208-223): running maximum starting from `0`. -/
def maxStep (m : List (List ℝ)) (rows cols : ℕ) : ℝ :=
  (Finset.range rows ×ˢ Finset.range cols).fold max 0
    (fun p => gradCell m rows cols p.1 p.2)

/-- Embedding of `calculateStepMatrix` (src/unnamed/part_002:203-237):
gradient magnitude per cell, normalized by the maximum when it is positive. -/
def calculateStepMatrix (m : List (List ℝ)) : List (List ℝ) :=
  let rows := m.length
  let cols := (m.getD 0 []).length
  let ms := maxStep m rows cols
  (List.range rows).map fun r => (List.range cols).map fun c =>
    if 0 < ms then gradCell m rows cols r c / ms else gradCell m rows cols r c

theorem gradCell_nonneg (m : List (List ℝ)) (rows cols r c : ℕ) :
    0 ≤ gradCell m rows cols r c :=
  Real.sqrt_nonneg _

theorem maxStep_nonneg (m : List (List ℝ)) (rows cols : ℕ) :
    0 ≤ maxStep m rows cols :=
  (Finset.le_fold_max 0).mpr (Or.inl le_rfl)

theorem gradCell_le_maxStep (m : List (List ℝ)) (rows cols r c : ℕ)
    (hr : r < rows) (hc : c < cols) :
    gradCell m rows cols r c ≤ maxStep m rows cols :=
  (Finset.le_fold_max _).mpr (Or.inr ⟨(r, c),
    Finset.mem_product.mpr ⟨Finset.mem_range.mpr hr, Finset.mem_range.mpr hc⟩, le_rfl⟩)

/-- A `fold max 0` over a finite set is `0` or attained at some element. -/
theorem fold_max_attained {ι : Type} [DecidableEq ι] (s : Finset ι) (f : ι → ℝ) :
    s.fold max 0 f = 0 ∨ ∃ x ∈ s, s.fold max 0 f = f x := by
  induction s using Finset.induction_on with
  | empty => exact Or.inl rfl
  | insert ha ih =>
    next a s =>
    rw [Finset.fold_insert ha]
    rcases le_total (f a) (s.fold max 0 f) with h | h
    · rw [max_eq_right h]
      rcases ih with h0 | ⟨x, hx, hfx⟩
      · exact Or.inl h0
      · exact Or.inr ⟨x, Finset.mem_insert_of_mem hx, hfx⟩
    · rw [max_eq_left h]
      exact Or.inr ⟨a, Finset.mem_insert_self a s, rfl⟩

theorem stepMatrix_entry (m : List (List ℝ)) (r c : ℕ)
    (hr : r < m.length) (hc : c < (m.getD 0 []).length) :
    getCell (calculateStepMatrix m) r c =
      (if 0 < maxStep m m.length (m.getD 0 []).length then
        gradCell m m.length (m.getD 0 []).length r c /
          maxStep m m.length (m.getD 0 []).length
      else gradCell m m.length (m.getD 0 []).length r c) := by
  unfold getCell
  have hc2 : c < (m[0]?.getD []).length := by
    rw [← List.getD_eq_getElem?_getD]
    exact hc
  simp only [calculateStepMatrix, List.getD_eq_getElem?_getD, List.getElem?_map,
    List.getElem?_range hr, List.getElem?_range hc2, Option.map_some', Option.getD_some]

/-- C8: for a non-empty rectangular potential matrix, every entry of
`calculateStepMatrix` lies in `[0, 1]`; when the maximum gradient is `0`
(the field is flat) the output is all zeros; when it is nonzero some cell
equals exactly `1`; and the maximum gradient is `0` exactly when every
forward-difference gradient is `0`. -/
theorem stepMatrix_invariants (m : List (List ℝ))
    (_hrows : 0 < m.length) (_hcols : 0 < (m.getD 0 []).length)
    (_hrect : ∀ row ∈ m, row.length = (m.getD 0 []).length) :
    (∀ r c, r < m.length → c < (m.getD 0 []).length →
      0 ≤ getCell (calculateStepMatrix m) r c ∧
        getCell (calculateStepMatrix m) r c ≤ 1) ∧
    (maxStep m m.length (m.getD 0 []).length = 0 →
      ∀ r c, r < m.length → c < (m.getD 0 []).length →
        getCell (calculateStepMatrix m) r c = 0) ∧
    (maxStep m m.length (m.getD 0 []).length ≠ 0 →
      ∃ r c, r < m.length ∧ c < (m.getD 0 []).length ∧
        getCell (calculateStepMatrix m) r c = 1) ∧
    (maxStep m m.length (m.getD 0 []).length = 0 ↔
      ∀ r c, r < m.length → c < (m.getD 0 []).length →
        gradCell m m.length (m.getD 0 []).length r c = 0) := by
  have hms0 := maxStep_nonneg m m.length (m.getD 0 []).length
  have hzero : maxStep m m.length (m.getD 0 []).length = 0 →
      ∀ r c, r < m.length → c < (m.getD 0 []).length →
        gradCell m m.length (m.getD 0 []).length r c = 0 := by
    intro h0 r c hr hc
    have h1 := gradCell_le_maxStep m m.length (m.getD 0 []).length r c hr hc
    have h2 := gradCell_nonneg m m.length (m.getD 0 []).length r c
    linarith
  refine ⟨fun r c hr hc => ?_, fun h0 r c hr hc => ?_, fun hne => ?_, ?_⟩
  · rw [stepMatrix_entry m r c hr hc]
    split
    case isTrue hpos =>
      refine ⟨div_nonneg (gradCell_nonneg _ _ _ _ _) hms0, ?_⟩
      rw [div_le_one hpos]
      exact gradCell_le_maxStep m _ _ r c hr hc
    case isFalse hpos =>
      have h0 : maxStep m m.length (m.getD 0 []).length = 0 := le_antisymm (not_lt.mp hpos) hms0
      rw [hzero h0 r c hr hc]
      norm_num
  · rw [stepMatrix_entry m r c hr hc, if_neg (by rw [h0]; exact lt_irrefl 0),
      hzero h0 r c hr hc]
  · rcases fold_max_attained (Finset.range m.length ×ˢ Finset.range (m.getD 0 []).length)
      (fun p => gradCell m m.length (m.getD 0 []).length p.1 p.2) with h0 | ⟨⟨r, c⟩, hmem, hval⟩
    · exact absurd h0 hne
    · rw [Finset.mem_product, Finset.mem_range, Finset.mem_range] at hmem
      refine ⟨r, c, hmem.1, hmem.2, ?_⟩
      rw [stepMatrix_entry m r c hmem.1 hmem.2,
        if_pos (lt_of_le_of_ne hms0 (Ne.symm hne))]
      exact div_eq_one_iff_eq hne |>.mpr hval.symm
  · refine ⟨hzero, fun hall => ?_⟩
    refine le_antisymm ((Finset.fold_max_le 0).mpr ⟨le_rfl, fun p hp => ?_⟩) hms0
    rw [Finset.mem_product, Finset.mem_range, Finset.mem_range] at hp
    rw [hall p.1 p.2 hp.1 hp.2]

/-- Witness for C8 on the concrete matrix `[[0, 1], [0, 1]]`. -/
theorem stepMatrix_invariants_witness :
    0 < ([[(0:ℝ), 1], [2, 5]] : List (List ℝ)).length ∧
    0 ≤ getCell (calculateStepMatrix [[(0:ℝ), 1], [2, 5]]) 0 0 ∧
    getCell (calculateStepMatrix [[(0:ℝ), 1], [2, 5]]) 0 0 ≤ 1 := by
  have h := stepMatrix_invariants [[(0:ℝ), 1], [2, 5]] (by norm_num)
    (by simp [List.getD])
    (by intro row hrow; simp at hrow; rcases hrow with h | h <;> subst h <;> simp [List.getD])
  have h00 := h.1 0 0 (by norm_num) (by simp [List.getD])
  exact ⟨by norm_num, h00.1, h00.2⟩

/-- C1: For valid inputs (all guards pass and the log-denominator is
positive), the direct Onderdonk path equals the `Kf`-helper path:
`calculateConductorSection If t α ρ c tm ta = If * calculateKf α ρ c tm ta * √t`. -/
theorem conductorSection_eq_kf_path
    (If t alpha20 rho20 tcap tm ta : ℝ)
    (hIf : 0 < If) (ht : 0 < t) (ha : 0 < alpha20) (hr : 0 < rho20)
    (hc : 0 < tcap) (htm : ta < tm)
    (hden : 0 < tcap * Real.log ((1 / alpha20 - 20 + tm) / (1 / alpha20 - 20 + ta))) :
    calculateConductorSection If t alpha20 rho20 tcap tm ta =
      If * calculateKf alpha20 rho20 tcap tm ta * Real.sqrt t := by
  unfold calculateConductorSection calculateKf
  rw [if_neg, if_neg, if_neg, if_neg]
  · have h1 : t * alpha20 * rho20 * 10000 /
        (tcap * Real.log ((1 / alpha20 - 20 + tm) / (1 / alpha20 - 20 + ta))) =
        alpha20 * rho20 * 10000 /
        (tcap * Real.log ((1 / alpha20 - 20 + tm) / (1 / alpha20 - 20 + ta))) * t := by
      ring
    rw [h1, Real.sqrt_mul' _ ht.le]
    ring
  · exact not_le.mpr hden
  · push_neg
    exact ⟨ha, hr, hc, htm⟩
  · exact not_le.mpr hden
  · push_neg
    exact ⟨hIf, ht, ha, hr, hc, htm⟩

/-- Witness for C1 at `If = 1, t = 4, α = 0.05, ρ = 1, tcap = 1, tm = 2, ta = 1`
(there `Ko = 0`, so the log argument is `2`). -/
theorem conductorSection_eq_kf_path_witness :
    (0:ℝ) < 1 ∧ (0:ℝ) < 4 ∧ (0:ℝ) < 0.05 ∧
    (0:ℝ) < 1 * Real.log ((1 / 0.05 - 20 + 2) / (1 / 0.05 - 20 + 1)) ∧
    calculateConductorSection 1 4 0.05 1 1 2 1 =
      1 * calculateKf 0.05 1 1 2 1 * Real.sqrt 4 := by
  have hlog : (0:ℝ) < 1 * Real.log ((1 / 0.05 - 20 + 2) / (1 / 0.05 - 20 + 1)) := by
    have h2 : ((1:ℝ) / 0.05 - 20 + 2) / (1 / 0.05 - 20 + 1) = 2 := by norm_num
    rw [h2, one_mul]
    exact Real.log_pos (by norm_num)
  exact ⟨by norm_num, by norm_num, by norm_num, hlog,
    conductorSection_eq_kf_path 1 4 0.05 1 1 2 1 (by norm_num) (by norm_num)
      (by norm_num) (by norm_num) (by norm_num) (by norm_num) hlog⟩

/-- C2: `calculatePermissibleVoltages` branches: for `0 < t ≤ 3` it returns the
short-duration limits via the two max-voltage helpers with duration `curta`;
for `t > 3` it returns `0.006·(1000+1.5·cs·ρs)` and `0.006·(1000+6·cs·ρs)` with
duration `longa`; for `t ≤ 0` it returns zeros with duration `curta`. -/
theorem permissibleVoltages_branches (t cs rho_s : ℝ) (w : BodyWeight) :
    (0 < t → t ≤ 3 →
      calculatePermissibleVoltages t cs rho_s w =
        { vPasso := calculateMaxStepVoltage t cs rho_s w
          vToque := calculateMaxTouchVoltage t cs rho_s w
          duration := .curta }) ∧
    (3 < t →
      calculatePermissibleVoltages t cs rho_s w =
        { vPasso := 0.006 * (1000 + 6 * cs * rho_s)
          vToque := 0.006 * (1000 + 1.5 * cs * rho_s)
          duration := .longa }) ∧
    (t ≤ 0 →
      calculatePermissibleVoltages t cs rho_s w =
        { vPasso := 0, vToque := 0, duration := .curta }) := by
  refine ⟨fun h0 h3 => ?_, fun h3 => ?_, fun h0 => ?_⟩
  · unfold calculatePermissibleVoltages
    rw [if_neg (not_le.mpr h0), if_pos]
    exact h3
  · unfold calculatePermissibleVoltages
    rw [if_neg (by push_neg; linarith),
        if_neg (by unfold LONG_DURATION_THRESHOLD; push_neg; linarith)]
    rfl
  · unfold calculatePermissibleVoltages
    rw [if_pos h0]

/-- Witness for C2 at `t = 1` (short branch), `t = 4` (long branch) and
`t = -1` (degenerate branch), with `cs = 2`, `ρs = 100`, 50 kg. -/
theorem permissibleVoltages_branches_witness :
    calculatePermissibleVoltages 1 2 100 .w50 =
      { vPasso := calculateMaxStepVoltage 1 2 100 .w50
        vToque := calculateMaxTouchVoltage 1 2 100 .w50
        duration := .curta } ∧
    calculatePermissibleVoltages 4 2 100 .w50 =
      { vPasso := 0.006 * (1000 + 6 * 2 * 100)
        vToque := 0.006 * (1000 + 1.5 * 2 * 100)
        duration := .longa } ∧
    calculatePermissibleVoltages (-1) 2 100 .w50 =
      { vPasso := 0, vToque := 0, duration := .curta } :=
  ⟨(permissibleVoltages_branches 1 2 100 .w50).1 (by norm_num) (by norm_num),
   (permissibleVoltages_branches 4 2 100 .w50).2.1 (by norm_num),
   (permissibleVoltages_branches (-1) 2 100 .w50).2.2 (by norm_num)⟩

/-- C9: for `t > 0` and `cs·ρs ≥ 0`, the permissible step-voltage limit is at
least the permissible touch-voltage limit (coefficient 6 versus 1.5 on the
surface-layer term, identical otherwise). -/
theorem maxStep_ge_maxTouch (t cs rho_s : ℝ) (w : BodyWeight)
    (ht : 0 < t) (hcs : 0 ≤ cs * rho_s) :
    calculateMaxTouchVoltage t cs rho_s w ≤ calculateMaxStepVoltage t cs rho_s w := by
  unfold calculateMaxTouchVoltage calculateMaxStepVoltage
  rw [if_neg (not_le.mpr ht), if_neg (not_le.mpr ht)]
  have hk : 0 ≤ bodyK w / Real.sqrt t := by
    apply div_nonneg _ (Real.sqrt_nonneg t)
    cases w <;> norm_num [bodyK]
  apply mul_le_mul_of_nonneg_right _ hk
  nlinarith

/-- Witness for C9 at `t = 1, cs = 1, ρs = 100`, 70 kg. -/
theorem maxStep_ge_maxTouch_witness :
    (0:ℝ) < 1 ∧ (0:ℝ) ≤ 1 * 100 ∧
    calculateMaxTouchVoltage 1 1 100 .w70 ≤ calculateMaxStepVoltage 1 1 100 .w70 :=
  ⟨by norm_num, by norm_num,
   maxStep_ge_maxTouch 1 1 100 .w70 (by norm_num) (by norm_num)⟩

/-- C10: `calculateKi` performs no validation: for every real `n`, including
non-positive `n`, it returns exactly `0.656 + 0.172·n` (never the neutral `0`
that `calculateKm` returns out of domain), and for `n < -0.656/0.172` the
result is negative. -/
theorem calculateKi_no_validation (n : ℝ) :
    calculateKi n = 0.656 + 0.172 * n ∧
    (n ≤ 0 → calculateKm n n n n true = 0 ∧ calculateKi n = 0.656 + 0.172 * n) ∧
    (n < -(0.656 / 0.172) → calculateKi n < 0) := by
  refine ⟨rfl, fun hn => ⟨?_, rfl⟩, fun hn => ?_⟩
  · unfold calculateKm
    rw [if_pos]
    tauto
  · unfold calculateKi
    nlinarith

/-- Witness for C10 at `n = -4 < -0.656/0.172 ≈ -3.814`. -/
theorem calculateKi_no_validation_witness :
    (-4:ℝ) ≤ 0 ∧ (-4:ℝ) < -(0.656 / 0.172) ∧
    calculateKm (-4) (-4) (-4) (-4) true = 0 ∧ calculateKi (-4) < 0 :=
  ⟨by norm_num, by norm_num,
   ((calculateKi_no_validation (-4)).2.1 (by norm_num)).1,
   (calculateKi_no_validation (-4)).2.2 (by norm_num)⟩

end
